import Mathlib

/-!
Verification of the mail-processing-workflow repository.

Strings manipulated by the Python code are modelled as `List Char`; each
Python function under scrutiny is translated into an executable Lean
definition over that representation.  External library behaviour
(`re`-based substitutions, `xml.etree.ElementTree` parsing, the tenacity
retry decorator, pandas positional access) is modelled by small executable
Lean functions restricted to the feature subset the repository exercises;
every such restriction is recorded in the corresponding doc comment.
-/

/-- Convert a Lean string literal into the `List Char` representation used
throughout this development. -/
def chars (s : String) : List Char := s.data

/-- Character class of Python's `str` whitespace (the set matched by `\s`
in `re` on `str` arguments and stripped by `str.strip()`): ASCII
whitespace plus the Unicode whitespace code points. -/
def isPySpace (c : Char) : Bool :=
  c = ' ' || c = '\t' || c = '\n' || c = '\r' || c = '\x0b' || c = '\x0c' ||
  c = '\x1c' || c = '\x1d' || c = '\x1e' || c = '\x1f' || c = '\x85' ||
  c = ' ' || c = ' ' || c = ' ' || c = ' ' || c = ' ' ||
  c = ' ' || c = ' ' || c = ' ' || c = ' ' || c = ' ' ||
  c = ' ' || c = ' ' || c = ' ' || c = ' ' || c = ' ' ||
  c = ' ' || c = ' ' || c = '　'

/-- Python `str.lower()` restricted to ASCII letters plus the accented
Spanish uppercase letters occurring in this repository's keyword data. -/
def pyLowerChar (c : Char) : Char :=
  if c = 'Á' then 'á' else if c = 'É' then 'é' else if c = 'Í' then 'í'
  else if c = 'Ó' then 'ó' else if c = 'Ú' then 'ú' else if c = 'Ñ' then 'ñ'
  else if c = 'Ü' then 'ü' else c.toLower

/-- `str.lower()` over the list-of-characters representation. -/
def pyLower (l : List Char) : List Char := l.map pyLowerChar

/-- Python `str.strip()` (strip trailing whitespace half, via `rdropWhile`). -/
def rstripPy (l : List Char) : List Char := l.rdropWhile isPySpace

/-- Python `str.strip()`: drop leading and trailing whitespace. -/
def stripPy (l : List Char) : List Char := (l.dropWhile isPySpace).rdropWhile isPySpace

/- ===================== src/utils/text_utils.py ===================== -/

/-- State machine for `re.sub(r'\s+', ' ', body)`: the first whitespace
character of each maximal run emits a single `' '`, subsequent run
characters are dropped (`inRun` records whether the previous character
belonged to a whitespace run). -/
def collapseGo (inRun : Bool) : List Char → List Char
  | [] => []
  | c :: cs =>
    if isPySpace c then
      if inRun then collapseGo true cs else ' ' :: collapseGo true cs
    else c :: collapseGo false cs

/-- `re.sub(r'\s+', ' ', body)`: replace every maximal run of whitespace
characters by a single space (text_utils.py line 21). -/
def collapseWs (l : List Char) : List Char := collapseGo false l

/-- State machine for `re.sub(r'(\r\n|\r|\n)+', ' ', body)`: each maximal
run of CR/LF characters is replaced by a single space. -/
def collapseNlGo (inRun : Bool) : List Char → List Char
  | [] => []
  | c :: cs =>
    if c = '\r' || c = '\n' then
      if inRun then collapseNlGo true cs else ' ' :: collapseNlGo true cs
    else c :: collapseNlGo false cs

/-- `re.sub(r'(\r\n|\r|\n)+', ' ', body)`: replace every maximal run of
CR/LF characters by a single space (text_utils.py line 24). -/
def collapseNewlines (l : List Char) : List Char := collapseNlGo false l

/-- The truncation marker appended by `clean_body_text` (15 characters). -/
def truncMarker : List Char := chars "... [truncated]"

/-- `clean_body_text(body, max_length=5000)` from src/utils/text_utils.py:
empty input short-circuits to `""`; otherwise whitespace runs are
collapsed, CR/LF runs are collapsed (a no-op after the first pass), the
text is truncated to `max_length` characters with a marker appended when
too long, and the result is stripped. -/
def clean_body_text (body : List Char) (max_length : Nat := 5000) : List Char :=
  if body = [] then []
  else
    let b1 := collapseWs body
    let b2 := collapseNewlines b1
    let b3 := if b2.length > max_length then b2.take max_length ++ truncMarker else b2
    stripPy b3

/-- Python word character `\w` restricted to ASCII (`[A-Za-z0-9_]`). -/
def isWordChar (c : Char) : Bool := c.isAlphanum || c = '_'

/-- Character class `[\w\.-]` of the e-mail regex in `extract_email_address`. -/
def isAtomChar (c : Char) : Bool := isWordChar c || c = '.' || c = '-'

/-- Model of `re.search(r'<([^>]+)>', s)` restricted to one candidate start:
a match starting at the current position requires a nonempty run of
non-`>` characters followed by `>`; returns the group-1 content. -/
def tryAngleAt (rest : List Char) : Option (List Char) :=
  let pre := rest.takeWhile (fun c => c ≠ '>')
  if pre ≠ [] ∧ pre.length < rest.length then some pre else none

/-- Model of `re.search(r'<([^>]+)>', s)`: leftmost match, returning the
content between the angle brackets (group 1). -/
def findAngleGroup : List Char → Option (List Char)
  | [] => none
  | c :: rest =>
    if c = '<' then
      match tryAngleAt rest with
      | some g => some g
      | none => findAngleGroup rest
    else findAngleGroup rest

/-- Greedy-with-backtracking split of the atom-character run following `@`
in the e-mail regex: picks the largest index `k ≥ 1` such that `run[k]`
is a literal dot followed by a word character, matching how
`[\w\.-]+\.\w+` backtracks from the longest second component. -/
def dotSplitIdx (run : List Char) : Option Nat :=
  ((List.range run.length).filter (fun k =>
    decide (1 ≤ k) && (run.getD k ' ' = '.') && decide (k + 1 < run.length) &&
    isWordChar (run.getD (k + 1) ' '))).getLast?

/-- Model of a match of `re.search(r'[\w\.-]+@[\w\.-]+\.\w+', s)` anchored
at the current position: maximal atom run, then `@`, then an atom run
split at the last feasible dot, then the maximal word run.  Returns the
whole matched text (group 0). -/
def tryEmailAt (s : List Char) : Option (List Char) :=
  let x1 := s.takeWhile isAtomChar
  if x1 = [] then none
  else
    match s.drop x1.length with
    | '@' :: rest2 =>
      let run := rest2.takeWhile isAtomChar
      match dotSplitIdx run with
      | some k =>
        some (x1 ++ '@' :: (run.take k ++ '.' :: ((run.drop (k + 1)).takeWhile isWordChar)))
      | none => none
    | _ => none

/-- Model of `re.search(r'[\w\.-]+@[\w\.-]+\.\w+', s)`: leftmost match. -/
def emailMatchFirst : List Char → Option (List Char)
  | [] => none
  | c :: rest =>
    match tryEmailAt (c :: rest) with
    | some m => some m
    | none => emailMatchFirst rest

/-- `extract_email_address(email_str)` from src/utils/text_utils.py.
`none` models Python `None`; `if not email_str` also catches the empty
string.  First an angle-bracketed address is sought (group 1, stripped),
then a bare e-mail pattern (group 0, stripped); otherwise the input is
returned stripped. -/
def extract_email_address (email_str : Option (List Char)) : List Char :=
  match email_str with
  | none => []
  | some s =>
    if s = [] then []
    else
      match findAngleGroup s with
      | some inner => stripPy inner
      | none =>
        match emailMatchFirst s with
        | some m => stripPy m
        | none => stripPy s

/- ================ src/extractors/content_analyzer.py ================ -/

/-- `ContentAnalyzer.RFQ_KEYWORDS` (content_analyzer.py lines 11-17). -/
def RFQ_KEYWORDS : List (List Char) :=
  [chars "rfq", chars "request for quotation", chars "request for quote",
   chars "cotización", chars "cotizacion", chars "presupuesto", chars "quote",
   chars "quotation", chars "precio", chars "price", chars "coste", chars "cost",
   chars "oferta", chars "offer", chars "propuesta", chars "proposal",
   chars "inquiry", chars "consulta", chars "información", chars "informacion",
   chars "information", chars "interesado", chars "interested",
   chars "necesito", chars "need", chars "require", chars "requerimos",
   chars "solicitud", chars "request"]

/-- `ContentAnalyzer.EXCLUSION_KEYWORDS` (content_analyzer.py lines 20-24). -/
def EXCLUSION_KEYWORDS : List (List Char) :=
  [chars "out of office", chars "fuera de la oficina", chars "automatic reply",
   chars "respuesta automática", chars "unsubscribe", chars "darse de baja",
   chars "newsletter", chars "boletín", chars "do not reply",
   chars "no responder", chars "noreply", chars "no-reply"]

/-- `f"{subject_lower} {body_lower}"`: the combined lowercase text scanned
for keywords by `ContentAnalyzer.analyze`. -/
def combinedText (subject body : List Char) : List Char :=
  pyLower subject ++ ' ' :: pyLower body

/-- The exclusion reason string built by `ContentAnalyzer.analyze`. -/
def exclusionReason (keyword : List Char) : List Char :=
  chars "Auto-reply or notification (keyword: " ++ keyword ++ chars ")"

/-- `ContentAnalyzer.analyze(subject, body)` from
src/extractors/content_analyzer.py: empty-empty check, exclusion-keyword
scan (first match in list order wins), RFQ-keyword scan, question-mark
heuristic, default rejection.  `(subject or "").lower()` equals
`pyLower subject` because the arguments are strings here. -/
def analyze (subject body : List Char) : Bool × List Char :=
  if subject = [] ∧ body = [] then (false, chars "Empty email")
  else
    let combined := combinedText subject body
    match EXCLUSION_KEYWORDS.find? (fun k => decide (k <:+: combined)) with
    | some keyword => (false, exclusionReason keyword)
    | none =>
      match RFQ_KEYWORDS.find? (fun k => decide (k <:+: combined)) with
      | some _ => (true, chars "RFQ keyword found")
      | none =>
        if '?' ∈ subject ∨ 2 ≤ body.count '?' then (true, chars "Contains questions")
        else (false, chars "No RFQ keywords or indicators found")

/- ========== src/utils/date_utils.py and src/extractor.py ========== -/

/-- A folder item as seen by `EmailProcessor._process_items`.  Timestamps
are modelled as integers (timezone-naive comparable instants); an
accessor that is absent, `None`, falsy, or that raises is collapsed to
`none`, exactly the cases `get_date_for_filtering` skips over.
`qualifyRaises` models an exception inside the step-2 `try` block
(COM attribute access / analysis failure); `excludedBuildRaises` models
an exception inside `_create_excluded_email`'s `try` block. -/
structure PyItem where
  receivedTime : Option Int
  sentOn : Option Int
  creationTime : Option Int
  subject : Option (List Char)
  body : Option (List Char)
  qualifyRaises : Bool
  excludedBuildRaises : Bool
deriving Repr, DecidableEq

/-- `get_date_for_filtering(email)` from src/utils/date_utils.py: try
`ReceivedTime`, then `SentOn`, then `CreationTime`; first success wins,
otherwise `None`. -/
def get_date_for_filtering (item : PyItem) : Option Int :=
  (item.receivedTime.orElse fun _ => item.sentOn).orElse fun _ => item.creationTime

/-- `EmailProcessor._check_date_filter` from src/extractor.py lines
201-227: unreadable date yields `(True, "error")`; a date strictly before
`start_date` or strictly after `end_date` yields `(True, "skip")`;
otherwise `(False, "ok")`. -/
def check_date_filter (item : PyItem) (start_date end_date : Option Int) :
    Bool × String :=
  match get_date_for_filtering item with
  | none => (true, "error")
  | some d =>
    if (match start_date with | some s => decide (d < s) | none => false) then (true, "skip")
    else if (match end_date with | some e => decide (e < d) | none => false) then (true, "skip")
    else (false, "ok")

/-- The fields of `models.ExcludedEmail` that the traversal claims inspect;
the remaining fields (from_name, from_email, date, location) are computed
from provider accessors orthogonal to every claim and are elided. -/
structure ExcludedEmail where
  subject : List Char
  body : List Char
  exclusion_reason : List Char
deriving Repr, DecidableEq

/-- `models.ProcessingError` as built at src/extractor.py lines 162-166;
`subject` is `getattr(item, 'Subject', 'Unknown')`, which yields the
stored attribute (possibly `None`) when present. -/
structure ProcErr where
  error : List Char
  subject : Option (List Char)
  date : List Char
deriving Repr, DecidableEq

/-- `EmailProcessor._create_excluded_email` from src/extractor.py lines
229-257: any exception while building the record is swallowed and `None`
is returned; otherwise the record is built with the cleaned body. -/
def create_excluded_email (item : PyItem) (subject body reason : List Char) :
    Option ExcludedEmail :=
  if item.excludedBuildRaises then none
  else some ⟨subject, clean_body_text body, reason⟩

/-- The accumulating state of `_process_items`: the three buckets plus the
counters mutated during traversal. -/
structure TravState where
  results : List PyItem
  excluded : List ExcludedEmail
  errors : List ProcErr
  total_items : Nat
  filtered_by_date : Nat
deriving Repr, DecidableEq

/-- The empty traversal state. -/
def initTravState : TravState := ⟨[], [], [], 0, 0⟩

/-- Step 2 and step 3 of the `_process_items` loop body (src/extractor.py
lines 173-194): qualification with fail-open on exception, exclusion
record collection, extraction append.  Extraction (`EmailExtractor.extract`)
is total — every field access failure is tagged, never raised — so the
extracted record is modelled by the item itself. -/
def qualifyAndExtract (st : TravState) (item : PyItem) : TravState :=
  if item.qualifyRaises then { st with results := st.results ++ [item] }
  else
    let subject := item.subject.getD []
    let body := item.body.getD []
    let (qualifies, reason) := analyze subject body
    if qualifies then { st with results := st.results ++ [item] }
    else
      match create_excluded_email item subject body reason with
      | some ex => { st with excluded := st.excluded ++ [ex] }
      | none => st

/-- One iteration of the `for item in target_folder.Items` loop of
`EmailProcessor._process_items` (src/extractor.py lines 146-194). -/
def processItem (start_date end_date : Option Int) (st : TravState)
    (item : PyItem) : TravState :=
  let st := { st with total_items := st.total_items + 1 }
  if start_date.isSome ∨ end_date.isSome then
    let (should_skip, reason) := check_date_filter item start_date end_date
    if reason = "error" then
      { st with errors := st.errors ++
          [⟨chars "Cannot read date (date filtering active)", item.subject, []⟩] }
    else if should_skip then
      { st with filtered_by_date := st.filtered_by_date + 1 }
    else qualifyAndExtract st item
  else qualifyAndExtract st item

/-- `EmailProcessor._process_items`: fold the loop body over the folder's
items in provider order. -/
def process_items (start_date end_date : Option Int) (items : List PyItem) :
    TravState :=
  items.foldl (processItem start_date end_date) initTravState

/-- The counters read off by `EmailProcessor._calculate_stats`
(src/extractor.py lines 259-269). -/
structure RunStats where
  extracted_count : Nat
  excluded_count : Nat
  error_count : Nat
  filtered_by_date : Nat
  total_items : Nat
deriving Repr, DecidableEq

/-- `_calculate_stats`: lengths of the three buckets plus the counters
accumulated during traversal. -/
def calculate_stats (st : TravState) : RunStats :=
  ⟨st.results.length, st.excluded.length, st.errors.length,
   st.filtered_by_date, st.total_items⟩

/- ==================== src/email_processing.py ==================== -/

/-- Tokens of the modelled XML subset: opening tag, closing tag, text run. -/
inductive XTok where
  | op (tag : List Char)
  | cl (tag : List Char)
  | tx (s : List Char)
deriving Repr, DecidableEq

/-- Emit a text token for a pending (possibly empty) text accumulator. -/
def flushText (acc : List Char) : List XTok :=
  if acc = [] then [] else [XTok.tx acc]

/-- The XML 1.0 `Char` production enforced by expat: `#x9 | #xA | #xD |
[#x20-#xD7FF] | [#xE000-#xFFFD] | [#x10000-#x10FFFF]`.  Any other
character is a parse error. -/
def xmlValidChar (c : Char) : Bool :=
  c = '\x09' || c = '\x0a' || c = '\x0d' ||
  (0x20 ≤ c.val && c.val ≤ 0xD7FF) ||
  (0xE000 ≤ c.val && c.val ≤ 0xFFFD) ||
  (0x10000 ≤ c.val && c.val ≤ 0x10FFFF)

/-- Whether the accumulated character data ends in `]]` — appending `>`
then would form the sequence `]]>`, which is illegal in XML character
data and rejected by expat. -/
def cdataEnd (acc : List Char) : Bool :=
  match acc.reverse with
  | ']' :: ']' :: _ => true
  | _ => false

/-- Expat's line-break normalization, applied to the input before
tokenization: `\r\n` and a lone `\r` both become `\n` (`prevCR` records
whether the previous character was a `\r`, whose pairing `\n` is then
dropped). -/
def normNlGo (prevCR : Bool) : List Char → List Char
  | [] => []
  | c :: rest =>
    if c = '\r' then '\n' :: normNlGo true rest
    else if c = '\n' ∧ prevCR = true then normNlGo false rest
    else c :: normNlGo false rest

/-- Line-break normalization of a whole document. -/
def normNl (l : List Char) : List Char := normNlGo false l

/-- Interpret an accumulated tag body as an opening or closing tag; empty
names are rejected, as `ElementTree` rejects them. -/
def mkTag (acc : List Char) : Option XTok :=
  match acc with
  | [] => none
  | '/' :: t => if t = [] then none else some (XTok.cl t)
  | _ => some (XTok.op acc)

mutual

/-- Text-mode step of the XML tokenizer (run on line-break-normalized
input): a bare `&` is a parse error (as in `ElementTree`; the five named
entities are not modelled — no input in this development contains one), a
character outside the XML `Char` production is a parse error, a `>`
completing the illegal character-data sequence `]]>` is a parse error,
`<` switches to tag mode, any other character is accumulated. -/
def tokText (l : List Char) (acc : List Char) : Option (List XTok) :=
  match l with
  | [] => some (flushText acc)
  | c :: rest =>
    if c = '<' then (tokTag rest []).map (fun ts => flushText acc ++ ts)
    else if c = '&' then none
    else if xmlValidChar c = false then none
    else if c = '>' ∧ cdataEnd acc = true then none
    else tokText rest (acc ++ [c])

/-- Tag-mode step of the XML tokenizer: `>` closes the tag, a second `<`
inside a tag is a parse error, a character outside the XML `Char`
production is a parse error, any other character joins the tag body. -/
def tokTag (l : List Char) (acc : List Char) : Option (List XTok) :=
  match l with
  | [] => none
  | c :: rest =>
    if c = '>' then
      match mkTag acc with
      | some t => (tokText rest []).map (fun ts => t :: ts)
      | none => none
    else if c = '<' then none
    else if xmlValidChar c = false then none
    else tokTag rest (acc ++ [c])

end

/-- Tokenize a document (start in text mode with an empty accumulator). -/
def tokenize (l : List Char) : Option (List XTok) := tokText l []

/-- Nodes of the modelled XML tree. -/
inductive XNode where
  | elem (tag : List Char) (children : List XNode)
  | txt (s : List Char)

/-- Stack machine turning a token list into a forest: `op` pushes a frame,
`cl` pops it (tag names must match), text joins the current frame.
Unbalanced documents yield `none`. -/
def buildTrees : List XTok → List (List Char × List XNode) → List XNode →
    Option (List XNode)
  | [], [], acc => some acc.reverse
  | [], _ :: _, _ => none
  | XTok.tx s :: ts, stk, acc => buildTrees ts stk (XNode.txt s :: acc)
  | XTok.op t :: ts, stk, acc => buildTrees ts ((t, acc) :: stk) []
  | XTok.cl t :: ts, (t', acc') :: stk, acc =>
    if t = t' then buildTrees ts stk (XNode.elem t acc.reverse :: acc') else none
  | XTok.cl _ :: _, [], _ => none

/-- Model of `xml.etree.ElementTree.fromstring` for the subset exercised by
this repository: expat's line-break normalization, then tokenization
(rejecting bare `&`, characters outside the XML `Char` production, and
`]]>` in character data), then tree building; a single root element, tags
without attributes, no comments, processing instructions, CDATA,
declarations or entities, and no text outside the root.  Parse failure is
`none` (Python: `ET.ParseError`). -/
def fromstring (l : List Char) : Option XNode :=
  match tokenize (normNl l) with
  | none => none
  | some ts =>
    match buildTrees ts [] [] with
    | some [XNode.elem t cs] => some (XNode.elem t cs)
    | _ => none

/-- `Element.text` as used by `findtext`: the text run preceding the first
child, `''` when absent (Python maps a `None` text to `''`). -/
def childText (n : XNode) : List Char :=
  match n with
  | XNode.elem _ (XNode.txt s :: _) => s
  | _ => []

/-- First child element with the given tag (document order), as used by
`ElementTree` path lookup on the single-occurrence tags of this schema. -/
def findChild (tag : List Char) : List XNode → Option XNode
  | [] => none
  | XNode.elem t cs :: rest =>
    if t = tag then some (XNode.elem t cs) else findChild tag rest
  | XNode.txt _ :: rest => findChild tag rest

/-- Walk a `/`-separated path through first matching children. -/
def findPath (ns : List XNode) : List (List Char) → Option XNode
  | [] => none
  | [p] => findChild p ns
  | p :: ps =>
    match findChild p ns with
    | some (XNode.elem _ cs) => findPath cs ps
    | _ => none

/-- `root.findtext(path, default)`: text of the first element reached by
the path, or the default when no element matches. -/
def findtext (root : XNode) (path : List (List Char)) (dflt : List Char) :
    List Char :=
  match root with
  | XNode.elem _ cs =>
    match findPath cs path with
    | some n => childText n
    | none => dflt
  | XNode.txt _ => dflt

/-- `re.sub(r"[\x00-\x08\x0B\x0C\x0E-\x1F]", "", xml_text)` (email_processing.py
line 204): the control characters removed before XML parsing. -/
def isStrippedCtrl (c : Char) : Bool :=
  (c ≤ '\x08') || c = '\x0b' || c = '\x0c' || ('\x0e' ≤ c && c ≤ '\x1f')

/-- Remove the disallowed control characters. -/
def stripCtrl (l : List Char) : List Char := l.filter (fun c => !isStrippedCtrl c)

/-- The nine schema keys of the dictionary built by `parse_xml`, in the
order the Python dict literals list them. -/
def schemaKeys : List String :=
  ["record_id", "company_name", "company_website", "company_country",
   "email_category", "product_category", "equipment_requested",
   "technical_specifications", "subject_body_correlation"]

/-- A `parse_xml` sentinel dictionary: all nine keys bound to one fixed
placeholder, except `record_id` which carries the branch label. -/
def sentinelDict (recordId fill : String) : List (String × List Char) :=
  [("record_id", chars recordId), ("company_name", chars fill),
   ("company_website", chars fill), ("company_country", chars fill),
   ("email_category", chars fill), ("product_category", chars fill),
   ("equipment_requested", chars fill), ("technical_specifications", chars fill),
   ("subject_body_correlation", chars fill)]

/-- The dictionary extracted from a parsed document by `parse_xml`
(email_processing.py lines 222-232), with the named default per field. -/
def extractedDict (root : XNode) : List (String × List Char) :=
  [("record_id", findtext root [chars "record_id"] (chars "Not found")),
   ("company_name", findtext root [chars "company_info", chars "name"] (chars "Not specified")),
   ("company_website", findtext root [chars "company_info", chars "website"] (chars "Not mentioned")),
   ("company_country", findtext root [chars "company_info", chars "country"] (chars "Not specified")),
   ("email_category", findtext root [chars "email_category"] (chars "Not specified")),
   ("product_category", findtext root [chars "product_category"] (chars "Not specified")),
   ("equipment_requested", findtext root [chars "equipment_requested"] (chars "Not specified")),
   ("technical_specifications", findtext root [chars "technical_specifications"] (chars "None specified")),
   ("subject_body_correlation", findtext root [chars "subject_body_correlation"] (chars "Not specified"))]

/-- `parse_xml(xml_text)` from src/email_processing.py lines 185-259.
`none` models Python `None`; `if not xml_text` also catches `""`.  The
final `except Exception` branch (the "Unexpected error" dictionary) is
unreachable in this model because control-character stripping, the
emptiness check and field extraction are total; only `ET.ParseError`
(modelled by `fromstring = none`) can occur. -/
def parse_xml (xml_text : Option (List Char)) : List (String × List Char) :=
  match xml_text with
  | none => sentinelDict "Empty response" "N/A"
  | some l =>
    if l = [] then sentinelDict "Empty response" "N/A"
    else
      let xml_clean := stripCtrl l
      if stripPy xml_clean = [] then sentinelDict "Empty after cleaning" "N/A"
      else
        match fromstring xml_clean with
        | some root => extractedDict root
        | none => sentinelDict "XML parse error" "Parse error"

/-- Python `str.find`: index of the first occurrence, `-1` when absent. -/
def pyFind (hay needle : List Char) : Int :=
  match (List.range (hay.length + 1)).find? (fun i => needle.isPrefixOf (hay.drop i)) with
  | some i => (i : Int)
  | none => -1

/-- Python slice `s[a:b]` for the non-negative indices reachable in
`analyze_email` (`a` is a found index, `b = find(...) + 11 ≥ 10`). -/
def pySlice (l : List Char) (a b : Int) : List Char :=
  (l.take b.toNat).drop a.toNat

/-- The sentinel analysis document returned by `analyze_email` when the
remote call raises (email_processing.py line 182). -/
def apiErrorSentinel : List Char :=
  chars "<analysis><record_id>error</record_id><company_info><name>API Error</name></company_info></analysis>"

/-- The sentinel document for an empty remote response (line 162). -/
def emptyResponseSentinel : List Char :=
  chars "<analysis><record_id>error</record_id><company_info><name>Empty response</name></company_info></analysis>"

/-- The sentinel document for a response without `<analysis>` (line 177). -/
def invalidFormatSentinel : List Char :=
  chars "<analysis><record_id>error</record_id><company_info><name>Invalid XML format</name></company_info></analysis>"

/-- Outcome of one remote completion call: the call raises, or it returns
a message whose `content` is `None` or a string. -/
inductive ApiOutcome where
  | raises
  | returns (content : Option (List Char))

/-- The validation applied by `analyze_email` to non-empty content
(email_processing.py lines 164-179): strip, accept text starting with
`<analysis>`, otherwise try to cut an embedded `<analysis>...</analysis>`
out of the text (note the Python quirk: a missing `</analysis>` makes
`end_idx = -1 + 11 = 10`), else return the invalid-format sentinel. -/
def processContent (content : List Char) : List Char :=
  let c := stripPy content
  if (chars "<analysis>").isPrefixOf c then c
  else
    if pyFind c (chars "<analysis>") ≥ 0 then
      let s := pyFind c (chars "<analysis>")
      let e := pyFind c (chars "</analysis>") + 11
      if e > s then pySlice c s e else c
    else invalidFormatSentinel

/-- The body of `analyze_email` for one attempt (the code inside the
decorated function, lines 145-182): the entire remote interaction is
wrapped in `try/except Exception`, so an exception from the call is
converted to the API-error sentinel and the function RETURNS normally —
it never raises. -/
def analyze_email_once (o : ApiOutcome) : Except Unit (List Char) :=
  match o with
  | ApiOutcome.raises => Except.ok apiErrorSentinel
  | ApiOutcome.returns none => Except.ok emptyResponseSentinel
  | ApiOutcome.returns (some c) =>
    if c = [] then Except.ok emptyResponseSentinel
    else Except.ok (processContent c)

/-- Model of tenacity's `retry(stop=stop_after_attempt(cap))` applied to a
fallible body: the body is re-invoked while it RAISES, up to `cap`
attempts; exhaustion propagates the failure (`RetryError`).  The result
is paired with the number of attempts actually made.  The backoff waits
(`wait_exponential`) affect only timing and are not modelled. -/
def retryRun (f : Nat → Except Unit α) (n : Nat) : Nat → Except Unit α × Nat
  | 0 => (Except.error (), n)
  | fuel + 1 =>
    match f n with
    | Except.ok a => (Except.ok a, n + 1)
    | Except.error _ => retryRun f (n + 1) fuel

/-- The decorated `analyze_email` for one record: tenacity around the body,
driven by an oracle giving the outcome of each remote call attempt.
Returns the delivered value (or propagated exception) and the number of
attempts performed. -/
def analyze_email_model (cap : Nat) (api : Nat → ApiOutcome) :
    Except Unit (List Char) × Nat :=
  retryRun (fun n => analyze_email_once (api n)) 0 cap

/-- `process_batch(batch_indices, df)` (email_processing.py lines 262-266):
one task per index, `asyncio.gather` preserving input order.  `df i`
models `df.iloc[i]`; `analyzeRow i row` models the settled result of
`analyze_email(i, row)`. -/
def process_batch (df : Nat → ρ) (analyzeRow : Nat → ρ → α) (idxs : List Nat) :
    List α :=
  idxs.map (fun idx => analyzeRow idx (df idx))

/-- The batching loop of `process_all_emails` from iteration index `i`:
`for i in range(0, total, CONCURRENCY)` with
`batch_end = min(i + CONCURRENCY, total)` and
`batch_indices = list(range(i, batch_end))`; the inter-batch sleep only
affects timing.  `conc = 0` makes Python's `range` raise, hence the guard. -/
def processAllFrom (df : Nat → ρ) (analyzeRow : Nat → ρ → α)
    (conc total i : Nat) : List α :=
  if h : i < total ∧ 0 < conc then
    process_batch df analyzeRow (List.range' i (min (i + conc) total - i)) ++
      processAllFrom df analyzeRow conc total (i + conc)
  else []
termination_by total - i
decreasing_by
  omega

/-- `process_all_emails(df)` (email_processing.py lines 268-286): process
the whole frame in fixed-size batches, concatenating batch results. -/
def process_all_emails (df : Nat → ρ) (analyzeRow : Nat → ρ → α)
    (conc total : Nat) : List α :=
  processAllFrom df analyzeRow conc total 0

/-- An opening tag `<t>`. -/
def openTag (t : List Char) : List Char := '<' :: (t ++ ['>'])

/-- A closing tag `</t>`. -/
def closeTag (t : List Char) : List Char := '<' :: '/' :: (t ++ ['>'])

/-- A leaf element `<t>v</t>`. -/
def leafElem (t v : List Char) : List Char := openTag t ++ v ++ closeTag t

/-- The child list of a leaf element after parsing: one text node when the
content is nonempty, nothing otherwise. -/
def txtNodes (v : List Char) : List XNode :=
  if v = [] then [] else [XNode.txt v]

/-- Serialization of nine field values into the structured response format
the prompt demands (the shape `analyze_email` returns and `parse_xml`
consumes): the `<analysis>` document with the nine schema fields in
order, tags directly nested. -/
def serializeAnalysis (v1 v2 v3 v4 v5 v6 v7 v8 v9 : List Char) : List Char :=
  openTag (chars "analysis") ++
  leafElem (chars "record_id") v1 ++
  openTag (chars "company_info") ++
  leafElem (chars "name") v2 ++
  leafElem (chars "website") v3 ++
  leafElem (chars "country") v4 ++
  closeTag (chars "company_info") ++
  leafElem (chars "email_category") v5 ++
  leafElem (chars "product_category") v6 ++
  leafElem (chars "equipment_requested") v7 ++
  leafElem (chars "technical_specifications") v8 ++
  leafElem (chars "subject_body_correlation") v9 ++
  closeTag (chars "analysis")

/-- The token list produced by tokenizing a serialized analysis document. -/
def analysisToks (v1 v2 v3 v4 v5 v6 v7 v8 v9 : List Char) : List XTok :=
  XTok.op (chars "analysis") ::
  XTok.op (chars "record_id") :: (flushText v1 ++ (XTok.cl (chars "record_id") ::
  XTok.op (chars "company_info") ::
  XTok.op (chars "name") :: (flushText v2 ++ (XTok.cl (chars "name") ::
  XTok.op (chars "website") :: (flushText v3 ++ (XTok.cl (chars "website") ::
  XTok.op (chars "country") :: (flushText v4 ++ (XTok.cl (chars "country") ::
  XTok.cl (chars "company_info") ::
  XTok.op (chars "email_category") :: (flushText v5 ++ (XTok.cl (chars "email_category") ::
  XTok.op (chars "product_category") :: (flushText v6 ++ (XTok.cl (chars "product_category") ::
  XTok.op (chars "equipment_requested") :: (flushText v7 ++ (XTok.cl (chars "equipment_requested") ::
  XTok.op (chars "technical_specifications") :: (flushText v8 ++ (XTok.cl (chars "technical_specifications") ::
  XTok.op (chars "subject_body_correlation") :: (flushText v9 ++ (XTok.cl (chars "subject_body_correlation") ::
  XTok.cl (chars "analysis") :: []))))))))))))))))))

/-- The tree produced by parsing a serialized analysis document. -/
def analysisRoot (v1 v2 v3 v4 v5 v6 v7 v8 v9 : List Char) : XNode :=
  XNode.elem (chars "analysis")
    [XNode.elem (chars "record_id") (txtNodes v1),
     XNode.elem (chars "company_info")
       [XNode.elem (chars "name") (txtNodes v2),
        XNode.elem (chars "website") (txtNodes v3),
        XNode.elem (chars "country") (txtNodes v4)],
     XNode.elem (chars "email_category") (txtNodes v5),
     XNode.elem (chars "product_category") (txtNodes v6),
     XNode.elem (chars "equipment_requested") (txtNodes v7),
     XNode.elem (chars "technical_specifications") (txtNodes v8),
     XNode.elem (chars "subject_body_correlation") (txtNodes v9)]

/-- The identity dictionary the round-trip property demands: each schema
key bound to the value that was serialized. -/
def identityDict (v1 v2 v3 v4 v5 v6 v7 v8 v9 : List Char) :
    List (String × List Char) :=
  [("record_id", v1), ("company_name", v2), ("company_website", v3),
   ("company_country", v4), ("email_category", v5), ("product_category", v6),
   ("equipment_requested", v7), ("technical_specifications", v8),
   ("subject_body_correlation", v9)]

/-- A character is safe for XML round-tripping through `parse_xml`: not
markup (`<`), not an entity introducer (`&`), not a carriage return
(expat rewrites `\r` to `\n`, so CR-carrying values are not reproduced
identically), not `]` (conservative: only the sequence `]]>` is illegal
character data, excluded here wholesale), not a control character removed
by `parse_xml` before parsing, and inside the XML `Char` production
(excluding `U+FFFE`/`U+FFFF`, which expat rejects). -/
def xmlSafe (c : Char) : Bool :=
  c ≠ '<' && c ≠ '&' && c ≠ '\r' && c ≠ ']' &&
  !isStrippedCtrl c && xmlValidChar c

/-- The tokenizer-level safety facts about one field value. -/
def tokSafe (v : List Char) : Prop :=
  ∀ c ∈ v, c ≠ '<' ∧ c ≠ '&' ∧ c ≠ ']' ∧ xmlValidChar c = true

/-- The bucket/counter balance the stats identity asserts. -/
def countsBalanced (st : TravState) : Prop :=
  st.results.length + st.excluded.length + st.errors.length +
    st.filtered_by_date = st.total_items

/- ============================ Theorems ============================ -/

/-- C1: the remote-failure scenario of `analyze_email` with attempt cap 3
(`RETRY_ATTEMPTS = 3`).  The delivered result is the "API Error" sentinel
and no exception reaches the batch caller, but the body's blanket
`except Exception` converts the failure on the very first call, so the
tenacity decorator observes no exception and performs no retry: exactly
one attempt is made instead of exhausting the configured cap. -/
theorem analyze_email_single_attempt_sentinel :
    analyze_email_model 3 (fun _ => ApiOutcome.raises) =
      (Except.ok apiErrorSentinel, 1) := by
  rfl

/-- C7: while a date filter is active, an item whose date cannot be
resolved from any of ReceivedTime/SentOn/CreationTime is recorded as a
`ProcessingError` and routed to neither the accepted nor the excluded
bucket, whatever the traversal state so far. -/
theorem unreadable_date_goes_to_errors
    (start_date end_date : Option Int) (st : TravState) (item : PyItem)
    (hactive : start_date.isSome ∨ end_date.isSome)
    (hdate : get_date_for_filtering item = none) :
    processItem start_date end_date st item =
      { st with
        total_items := st.total_items + 1,
        errors := st.errors ++
          [⟨chars "Cannot read date (date filtering active)", item.subject, []⟩] } := by
  unfold processItem
  have hact : (start_date.isSome ∨ end_date.isSome) = True := by
    simp [hactive]
  rw [if_pos (by simpa using hactive)]
  unfold check_date_filter
  rw [hdate]
  simp

/-- Witness for C7 at a concrete input: active start bound, item with all
three timestamp accessors unavailable. -/
theorem unreadable_date_goes_to_errors_witness :
    processItem (some 5) none initTravState
        ⟨none, none, none, some (chars "hello"), some [], false, false⟩ =
      { initTravState with
        total_items := 1,
        errors := [⟨chars "Cannot read date (date filtering active)",
                    some (chars "hello"), []⟩] } :=
  unreadable_date_goes_to_errors (some 5) none initTravState
    ⟨none, none, none, some (chars "hello"), some [], false, false⟩
    (Or.inl rfl) rfl

/-- C8: an item that passes the date filter and whose qualification step
raises is treated as qualifying (fail-open): it is appended to the
accepted bucket and to neither excluded nor errors. -/
theorem qualify_exception_fail_open
    (start_date end_date : Option Int) (st : TravState) (item : PyItem)
    (hdate : (start_date.isNone ∧ end_date.isNone) ∨
             check_date_filter item start_date end_date = (false, "ok"))
    (hraises : item.qualifyRaises = true) :
    processItem start_date end_date st item =
      { st with
        total_items := st.total_items + 1,
        results := st.results ++ [item] } := by
  unfold processItem
  rcases hdate with ⟨h1, h2⟩ | hok
  · rw [if_neg (by simp [h1, h2])]
    unfold qualifyAndExtract
    rw [if_pos hraises]
  · by_cases hact : start_date.isSome ∨ end_date.isSome
    · rw [if_pos (by simpa using hact)]
      rw [hok]
      simp only [String.reduceEq, if_false, Bool.false_eq_true]
      unfold qualifyAndExtract
      rw [if_pos hraises]
    · rw [if_neg (by simpa using hact)]
      unfold qualifyAndExtract
      rw [if_pos hraises]

/-- Witness for C8 at a concrete input: active date filter, in-range date,
qualification raises. -/
theorem qualify_exception_fail_open_witness :
    processItem (some 0) (some 10) initTravState
        ⟨some 5, none, none, none, none, true, false⟩ =
      { initTravState with
        total_items := 1,
        results := [⟨some 5, none, none, none, none, true, false⟩] } :=
  qualify_exception_fail_open (some 0) (some 10) initTravState
    ⟨some 5, none, none, none, none, true, false⟩
    (Or.inr (by decide)) rfl

/-- C10: `extract_email_address` passes unparseable input through: when the
input is nonempty, contains no angle-bracketed segment and no substring
matching the e-mail pattern, the result is the input stripped of
surrounding whitespace — never an empty or sentinel value; `None` and the
empty string map to the empty string. -/
theorem extract_email_address_passthrough (s : List Char)
    (hne : s ≠ [])
    (hangle : findAngleGroup s = none)
    (hemail : emailMatchFirst s = none) :
    extract_email_address (some s) = stripPy s ∧
    extract_email_address none = [] ∧
    extract_email_address (some []) = [] := by
  refine ⟨?_, rfl, rfl⟩
  show (if s = [] then []
        else
          match findAngleGroup s with
          | some inner => stripPy inner
          | none =>
            match emailMatchFirst s with
            | some m => stripPy m
            | none => stripPy s) = stripPy s
  rw [if_neg hne, hangle, hemail]

/-- Witness for C10 at a concrete input. -/
theorem extract_email_address_passthrough_witness :
    extract_email_address (some (chars "  Ana Ruiz  ")) =
      stripPy (chars "  Ana Ruiz  ") ∧
    extract_email_address none = [] ∧
    extract_email_address (some []) = [] :=
  extract_email_address_passthrough (chars "  Ana Ruiz  ")
    (by decide) (by decide) (by decide)

/-- Steps 2-3 of the loop body route the item to exactly one of
accepted/excluded — provided `_create_excluded_email` does not fail —
and touch neither errors nor the counters. -/
theorem qualifyAndExtract_counts (item : PyItem)
    (hb : item.excludedBuildRaises = false) (st : TravState) :
    (qualifyAndExtract st item).results.length +
        (qualifyAndExtract st item).excluded.length =
      st.results.length + st.excluded.length + 1 ∧
    (qualifyAndExtract st item).errors = st.errors ∧
    (qualifyAndExtract st item).filtered_by_date = st.filtered_by_date ∧
    (qualifyAndExtract st item).total_items = st.total_items := by
  unfold qualifyAndExtract
  by_cases hq : item.qualifyRaises
  · rw [if_pos hq]
    simp
    omega
  · rw [if_neg hq]
    rcases ha : analyze (item.subject.getD []) (item.body.getD []) with ⟨q, reason⟩
    simp only [ha]
    cases q
    · simp [create_excluded_email, hb]
      omega
    · simp
      omega

/-- Steps 2-3 restore the balance for a state whose total counter is one
ahead of its buckets. -/
theorem qualifyAndExtract_balanced (item : PyItem)
    (hb : item.excludedBuildRaises = false) (st1 : TravState)
    (h : st1.results.length + st1.excluded.length + st1.errors.length +
      st1.filtered_by_date + 1 = st1.total_items) :
    countsBalanced (qualifyAndExtract st1 item) := by
  obtain ⟨h1, h2, h3, h4⟩ := qualifyAndExtract_counts item hb st1
  unfold countsBalanced
  rw [h2, h3, h4]
  omega

/-- One loop iteration preserves the balance when the item's
excluded-record construction cannot fail. -/
theorem processItem_counts (sd ed : Option Int) (st : TravState) (item : PyItem)
    (hb : item.excludedBuildRaises = false)
    (h : countsBalanced st) : countsBalanced (processItem sd ed st item) := by
  have hqa := qualifyAndExtract_balanced item hb
  unfold countsBalanced at h
  unfold processItem
  by_cases hact : sd.isSome ∨ ed.isSome
  · rw [if_pos (by simpa using hact)]
    rcases hcd : check_date_filter item sd ed with ⟨b, r⟩
    dsimp only
    by_cases hr : r = "error"
    · rw [if_pos hr]
      unfold countsBalanced
      simp only [List.length_append, List.length_cons, List.length_nil]
      omega
    · rw [if_neg hr]
      cases b
      · simp only [Bool.false_eq_true, if_false]
        exact hqa _ (by simp; omega)
      · simp only [if_true]
        unfold countsBalanced
        simp
        omega
  · rw [if_neg (by simpa using hact)]
    exact hqa _ (by simp; omega)

/-- The balance for a whole traversal in which no excluded-record
construction fails. -/
theorem process_items_counts (sd ed : Option Int) (items : List PyItem)
    (hall : ∀ i ∈ items, i.excludedBuildRaises = false) :
    countsBalanced (process_items sd ed items) := by
  have main : ∀ l : List PyItem, (∀ i ∈ l, i.excludedBuildRaises = false) →
      ∀ st : TravState, countsBalanced st →
      countsBalanced (l.foldl (processItem sd ed) st) := by
    intro l
    induction l with
    | nil => intro _ st h; simpa using h
    | cons a t ih =>
      intro hl st h
      simp only [List.foldl_cons]
      exact ih (fun i hi => hl i (List.mem_cons_of_mem _ hi)) _
        (processItem_counts sd ed st a (hl a (List.mem_cons_self _ _)) h)
  exact main items hall initTravState (by unfold countsBalanced initTravState; simp)

/-- C6 (amended): every traversed item is accounted for in exactly one
bucket — `extracted + excluded + errors + filtered_by_date = total` —
provided no exception is swallowed while building an excluded record; a
swallowed `_create_excluded_email` failure removes its non-qualifying
item from all buckets (see the counterexample). -/
theorem traversal_count_identity (sd ed : Option Int) (items : List PyItem)
    (hall : ∀ i ∈ items, i.excludedBuildRaises = false) :
    (calculate_stats (process_items sd ed items)).extracted_count +
      (calculate_stats (process_items sd ed items)).excluded_count +
      (calculate_stats (process_items sd ed items)).error_count +
      (calculate_stats (process_items sd ed items)).filtered_by_date =
      (calculate_stats (process_items sd ed items)).total_items := by
  have hbal := process_items_counts sd ed items hall
  unfold countsBalanced at hbal
  unfold calculate_stats
  exact hbal

/-- Witness for the amended C6 on a concrete mixed run: one accepted item,
one excluded item, one date-error item, one date-filtered item. -/
theorem traversal_count_identity_witness :
    (∀ i ∈ ([⟨some 5, none, none, some (chars "need a quote"), some [], false, false⟩,
             ⟨some 6, none, none, some (chars "newsletter"), some [], false, false⟩,
             ⟨none, none, none, some (chars "x"), some [], false, false⟩,
             ⟨some 99, none, none, some (chars "quote"), some [], false, false⟩] :
        List PyItem), i.excludedBuildRaises = false) ∧
    (calculate_stats (process_items (some 0) (some 10)
        [⟨some 5, none, none, some (chars "need a quote"), some [], false, false⟩,
         ⟨some 6, none, none, some (chars "newsletter"), some [], false, false⟩,
         ⟨none, none, none, some (chars "x"), some [], false, false⟩,
         ⟨some 99, none, none, some (chars "quote"), some [], false, false⟩])).extracted_count +
      (calculate_stats (process_items (some 0) (some 10)
        [⟨some 5, none, none, some (chars "need a quote"), some [], false, false⟩,
         ⟨some 6, none, none, some (chars "newsletter"), some [], false, false⟩,
         ⟨none, none, none, some (chars "x"), some [], false, false⟩,
         ⟨some 99, none, none, some (chars "quote"), some [], false, false⟩])).excluded_count +
      (calculate_stats (process_items (some 0) (some 10)
        [⟨some 5, none, none, some (chars "need a quote"), some [], false, false⟩,
         ⟨some 6, none, none, some (chars "newsletter"), some [], false, false⟩,
         ⟨none, none, none, some (chars "x"), some [], false, false⟩,
         ⟨some 99, none, none, some (chars "quote"), some [], false, false⟩])).error_count +
      (calculate_stats (process_items (some 0) (some 10)
        [⟨some 5, none, none, some (chars "need a quote"), some [], false, false⟩,
         ⟨some 6, none, none, some (chars "newsletter"), some [], false, false⟩,
         ⟨none, none, none, some (chars "x"), some [], false, false⟩,
         ⟨some 99, none, none, some (chars "quote"), some [], false, false⟩])).filtered_by_date =
      (calculate_stats (process_items (some 0) (some 10)
        [⟨some 5, none, none, some (chars "need a quote"), some [], false, false⟩,
         ⟨some 6, none, none, some (chars "newsletter"), some [], false, false⟩,
         ⟨none, none, none, some (chars "x"), some [], false, false⟩,
         ⟨some 99, none, none, some (chars "quote"), some [], false, false⟩])).total_items :=
  ⟨by decide,
   traversal_count_identity (some 0) (some 10)
     [⟨some 5, none, none, some (chars "need a quote"), some [], false, false⟩,
      ⟨some 6, none, none, some (chars "newsletter"), some [], false, false⟩,
      ⟨none, none, none, some (chars "x"), some [], false, false⟩,
      ⟨some 99, none, none, some (chars "quote"), some [], false, false⟩]
     (by decide)⟩

/-- C6 counterexample: the claim as stated fails on a run with a single
non-qualifying item whose excluded-record construction raises — the
exception is swallowed (src/extractor.py lines 256-257), the item lands
in no bucket, and the four counters sum to 0 while `total_items = 1`. -/
theorem traversal_count_identity_cex :
    (calculate_stats (process_items none none
        [⟨none, none, none, some (chars "newsletter"), some [], false, true⟩])).extracted_count +
      (calculate_stats (process_items none none
        [⟨none, none, none, some (chars "newsletter"), some [], false, true⟩])).excluded_count +
      (calculate_stats (process_items none none
        [⟨none, none, none, some (chars "newsletter"), some [], false, true⟩])).error_count +
      (calculate_stats (process_items none none
        [⟨none, none, none, some (chars "newsletter"), some [], false, true⟩])).filtered_by_date ≠
      (calculate_stats (process_items none none
        [⟨none, none, none, some (chars "newsletter"), some [], false, true⟩])).total_items := by
  decide

/-- C5: for any (subject, body) that is not both-empty, if the combined
lowercase text contains an exclusion keyword then `ContentAnalyzer.analyze`
rejects with a reason naming a matched exclusion keyword — even when the
text also contains RFQ keywords, because the exclusion scan runs first. -/
theorem exclusion_precedes_rfq (subject body : List Char)
    (hne : ¬(subject = [] ∧ body = []))
    (hex : ∃ k ∈ EXCLUSION_KEYWORDS, k <:+: combinedText subject body) :
    (analyze subject body).1 = false ∧
    ∃ k ∈ EXCLUSION_KEYWORDS, k <:+: combinedText subject body ∧
      (analyze subject body).2 = exclusionReason k := by
  unfold analyze
  rw [if_neg hne]
  dsimp only
  have hsome : (EXCLUSION_KEYWORDS.find?
      (fun k => decide (k <:+: combinedText subject body))).isSome := by
    rw [List.find?_isSome]
    obtain ⟨k, hk, hik⟩ := hex
    exact ⟨k, hk, by simpa using hik⟩
  obtain ⟨k, hfind⟩ := Option.isSome_iff_exists.mp hsome
  rw [hfind]
  refine ⟨rfl, k, List.mem_of_find?_eq_some hfind, ?_, rfl⟩
  simpa using List.find?_some hfind

/-- Witness for C5: a subject carrying both an exclusion keyword and an
RFQ keyword is rejected with the exclusion reason. -/
theorem exclusion_precedes_rfq_witness :
    ¬((chars "Automatic reply: quote request") = [] ∧ (chars "price?") = []) ∧
    (analyze (chars "Automatic reply: quote request") (chars "price?")).1 = false ∧
    ∃ k ∈ EXCLUSION_KEYWORDS,
      k <:+: combinedText (chars "Automatic reply: quote request") (chars "price?") ∧
      (analyze (chars "Automatic reply: quote request") (chars "price?")).2 =
        exclusionReason k :=
  ⟨by decide,
   exclusion_precedes_rfq (chars "Automatic reply: quote request") (chars "price?")
     (by decide)
     ⟨chars "automatic reply", by decide, by decide⟩⟩

/-- Unfolding of the batching loop: starting at index `i` it enumerates
exactly the indices `i, i+1, ..., total-1` in order. -/
theorem processAllFrom_eq (df : Nat → ρ) (g : Nat → ρ → α) (conc total : Nat)
    (hc : 0 < conc) :
    ∀ i, processAllFrom df g conc total i =
      (List.range' i (total - i)).map (fun idx => g idx (df idx)) := by
  have main : ∀ n i, total - i ≤ n → processAllFrom df g conc total i =
      (List.range' i (total - i)).map (fun idx => g idx (df idx)) := by
    intro n
    induction n with
    | zero =>
      intro i h
      have hge : ¬(i < total ∧ 0 < conc) := by omega
      unfold processAllFrom
      rw [dif_neg hge]
      have h0 : total - i = 0 := by omega
      rw [h0]
      simp
    | succ n ih =>
      intro i h
      by_cases hlt : i < total
      · unfold processAllFrom
        rw [dif_pos ⟨hlt, hc⟩]
        rw [ih (i + conc) (by omega)]
        unfold process_batch
        rw [← List.map_append]
        congr 1
        by_cases hik : i + conc ≤ total
        · have hmin : min (i + conc) total = i + conc := min_eq_left hik
          rw [hmin, Nat.add_sub_cancel_left]
          have := List.range'_append i conc (total - (i + conc)) 1
          simp only [Nat.mul_one, Nat.one_mul] at this
          rw [this]
          congr 1
          omega
        · have hmin : min (i + conc) total = total := min_eq_right (by omega)
          rw [hmin]
          have h2 : total - (i + conc) = 0 := by omega
          rw [h2]
          simp
      · unfold processAllFrom
        rw [dif_neg (by omega)]
        have h0 : total - i = 0 := by omega
        rw [h0]
        simp
  exact fun i => main (total - i) i le_rfl

/-- C2: for every frame and per-record analysis outcome, the orchestrator
returns exactly one result per input record, in input order: the output
has length `total` and its `i`-th entry is the result for row `i`,
whatever the (positive) batch size. -/
theorem process_all_emails_ordered (df : Nat → ρ) (g : Nat → ρ → α)
    (conc total : Nat) (hc : 0 < conc) :
    (process_all_emails df g conc total).length = total ∧
    ∀ i, i < total →
      (process_all_emails df g conc total)[i]? = some (g i (df i)) := by
  have heq : process_all_emails df g conc total =
      (List.range total).map (fun idx => g idx (df idx)) := by
    unfold process_all_emails
    rw [processAllFrom_eq df g conc total hc 0]
    rw [Nat.sub_zero, List.range_eq_range']
  constructor
  · rw [heq]; simp
  · intro i hi
    rw [heq]
    rw [List.getElem?_map]
    rw [List.getElem?_range hi]
    rfl

/-- Witness for C2: five records in batches of two. -/
theorem process_all_emails_ordered_witness :
    (0 < 2) ∧
    (process_all_emails (fun i => i) (fun i r => i * 100 + r) 2 5).length = 5 ∧
    ∀ i, i < 5 →
      (process_all_emails (fun i => i) (fun i r => i * 100 + r) 2 5)[i]? =
        some (i * 100 + i) :=
  ⟨by decide,
   (process_all_emails_ordered (fun i => i) (fun i r => i * 100 + r) 2 5
     (by decide)).1,
   (process_all_emails_ordered (fun i => i) (fun i r => i * 100 + r) 2 5
     (by decide)).2⟩

/-- C4: `parse_xml` is total (the Python function catches every exception)
and every branch — `None`, empty, empty-after-cleaning, parse error, and
successful extraction — returns a dictionary carrying exactly the nine
schema keys in schema order; each key is bound to the extracted value or
to that branch's explicit placeholder, never omitted. -/
theorem parse_xml_total_schema (x : Option (List Char)) :
    (parse_xml x).map Prod.fst = schemaKeys := by
  unfold parse_xml
  cases x with
  | none => rfl
  | some l =>
    dsimp only
    split
    · rfl
    · split
      · rfl
      · split
        · rfl
        · rfl


/-- Every character kept by `collapseGo` is a literal space or is not
whitespace at all. -/
theorem collapseGo_mem (l : List Char) :
    ∀ b, ∀ c ∈ collapseGo b l, c = ' ' ∨ isPySpace c = false := by
  induction l with
  | nil => intro b c hc; simp [collapseGo] at hc
  | cons a as ih =>
    intro b c hc
    rw [collapseGo] at hc
    by_cases ha : isPySpace a
    · rw [if_pos ha] at hc
      cases b with
      | true => exact ih true c (by simpa using hc)
      | false =>
        simp only [if_neg Bool.false_ne_true, List.mem_cons] at hc
        rcases hc with hc | hc
        · exact Or.inl hc
        · exact ih true c hc
    · rw [if_neg ha] at hc
      rcases List.mem_cons.mp hc with hc | hc
      · subst hc; exact Or.inr (by simpa using ha)
      · exact ih false c hc

/-- In the `inRun = true` state the next emitted character is never
whitespace. -/
theorem collapseGo_true_head (l : List Char) :
    ∀ c, (collapseGo true l).head? = some c → isPySpace c = false := by
  induction l with
  | nil => intro c hc; simp [collapseGo] at hc
  | cons a as ih =>
    intro c hc
    rw [collapseGo] at hc
    by_cases ha : isPySpace a
    · rw [if_pos ha, if_pos rfl] at hc
      exact ih c hc
    · rw [if_neg ha] at hc
      simp at hc
      subst hc
      simpa using ha

/-- No two adjacent characters of a collapsed text are both whitespace. -/
theorem collapseGo_chain (l : List Char) :
    ∀ b, List.Chain' (fun a c => ¬(isPySpace a = true ∧ isPySpace c = true))
      (collapseGo b l) := by
  induction l with
  | nil => intro b; simp [collapseGo]
  | cons a as ih =>
    intro b
    rw [collapseGo]
    by_cases ha : isPySpace a
    · rw [if_pos ha]
      cases b with
      | true => exact ih true
      | false =>
        rw [if_neg Bool.false_ne_true]
        rw [List.chain'_cons']
        refine ⟨?_, ih true⟩
        intro y hy
        intro ⟨_, hys⟩
        rw [collapseGo_true_head as y hy] at hys
        exact Bool.false_ne_true hys
    · rw [if_neg ha]
      rw [List.chain'_cons']
      refine ⟨?_, ih false⟩
      intro y _
      intro ⟨has, _⟩
      rw [has] at ha
      exact ha rfl

/-- `collapseNlGo` is the identity on CR/LF-free text. -/
theorem collapseNlGo_eq_self (l : List Char)
    (h : ∀ c ∈ l, c ≠ '\r' ∧ c ≠ '\n') : ∀ b, collapseNlGo b l = l := by
  induction l with
  | nil => intro b; rfl
  | cons a as ih =>
    intro b
    rw [collapseNlGo]
    have ha := h a (List.mem_cons_self _ _)
    rw [if_neg (by simp [ha.1, ha.2])]
    rw [ih (fun c hc => h c (List.mem_cons_of_mem _ hc)) false]

/-- Stripping trailing characters never lengthens a list. -/
theorem rdropWhile_length_le (p : Char → Bool) (l : List Char) :
    (l.rdropWhile p).length ≤ l.length := by
  rw [List.rdropWhile, List.length_reverse]
  calc (l.reverse.dropWhile p).length ≤ l.reverse.length :=
        (List.dropWhile_sublist p).length_le
    _ = l.length := List.length_reverse _

/-- Stripping trailing characters keeps a sub-collection of characters. -/
theorem rdropWhile_subset (p : Char → Bool) (l : List Char) :
    ∀ c ∈ l.rdropWhile p, c ∈ l := by
  intro c hc
  rw [List.rdropWhile, List.mem_reverse] at hc
  have := (List.dropWhile_sublist p).subset hc
  rwa [List.mem_reverse] at this

/-- An adjacency invariant for a symmetric relation survives trailing
stripping. -/
theorem rdropWhile_chain {R : Char → Char → Prop} (p : Char → Bool)
    (l : List Char) (h : List.Chain' R l) :
    List.Chain' R (l.rdropWhile p) := by
  rw [List.rdropWhile]
  rw [List.chain'_reverse]
  refine List.Chain'.suffix ?_ (List.dropWhile_suffix p)
  rw [List.chain'_reverse]
  exact h

/-- `str.strip()` never lengthens a string. -/
theorem stripPy_length_le (l : List Char) : (stripPy l).length ≤ l.length := by
  unfold stripPy
  calc ((l.dropWhile isPySpace).rdropWhile isPySpace).length
      ≤ (l.dropWhile isPySpace).length := rdropWhile_length_le _ _
    _ ≤ l.length := (List.dropWhile_sublist _).length_le

/-- `str.strip()` keeps a sub-collection of characters. -/
theorem stripPy_subset (l : List Char) : ∀ c ∈ stripPy l, c ∈ l := by
  intro c hc
  unfold stripPy at hc
  exact (List.dropWhile_sublist isPySpace).subset (rdropWhile_subset _ _ c hc)

/-- An adjacency invariant survives `str.strip()`. -/
theorem stripPy_chain {R : Char → Char → Prop} (l : List Char)
    (h : List.Chain' R l) : List.Chain' R (stripPy l) :=
  rdropWhile_chain _ _ (List.Chain'.suffix h (List.dropWhile_suffix _))

/-- The characters kept by `collapseWs` are never CR or LF (whitespace is
normalized to literal spaces). -/
theorem collapseWs_no_crlf (body : List Char) :
    ∀ c ∈ collapseWs body, c ≠ '\r' ∧ c ≠ '\n' := by
  intro c hc
  rcases collapseGo_mem body false c hc with hsp | hns
  · subst hsp; exact ⟨by decide, by decide⟩
  · constructor
    · intro hr; subst hr; exact absurd hns (by decide)
    · intro hn; subst hn; exact absurd hns (by decide)

/-- An adjacency invariant transfers from `Chain'` to the list of adjacent
pairs. -/
theorem chain'_adj_pairs {R : Char → Char → Prop} :
    ∀ l : List Char, List.Chain' R l → ∀ p ∈ l.zip l.tail, R p.1 p.2 := by
  intro l
  induction l with
  | nil => intro _ p hp; simp at hp
  | cons a t ih =>
    intro h p hp
    match t with
    | [] => simp at hp
    | b :: t' =>
      rw [List.chain'_cons] at h
      simp only [List.tail_cons, List.zip_cons_cons, List.mem_cons] at hp
      rcases hp with hp | hp
      · subst hp; exact h.1
      · exact ih h.2 p (by simpa using hp)

/-- The truncation marker contains no adjacent whitespace pair. -/
theorem truncMarker_chain :
    List.Chain' (fun a c => ¬(isPySpace a = true ∧ isPySpace c = true))
      truncMarker := by
  have he : truncMarker =
      ['.', '.', '.', ' ', '[', 't', 'r', 'u', 'n', 'c', 'a', 't', 'e', 'd', ']'] := rfl
  rw [he]
  simp only [List.chain'_cons, List.chain'_singleton]
  decide

/-- C9: `clean_body_text` is total and, for every body and positive
`max_length`, returns text of length at most `max_length + 15` (the
truncation marker makes outputs overshoot the configured maximum by up
to 15 characters), containing no CR/LF and no two adjacent whitespace
characters; when the collapsed body already fits, the result is exactly
the stripped collapsed body — no marker appended. -/
theorem clean_body_text_bounded (body : List Char) (max_length : Nat)
    (hpos : 0 < max_length) :
    (clean_body_text body max_length).length ≤ max_length + 15 ∧
    (∀ c ∈ clean_body_text body max_length, c ≠ '\n' ∧ c ≠ '\r') ∧
    (∀ p ∈ (clean_body_text body max_length).zip
        (clean_body_text body max_length).tail,
      ¬(isPySpace p.1 = true ∧ isPySpace p.2 = true)) ∧
    ((collapseWs body).length ≤ max_length →
      clean_body_text body max_length = stripPy (collapseWs body)) := by
  by_cases hb : body = []
  · subst hb
    have h0 : ∀ n, clean_body_text [] n = [] := fun _ => rfl
    rw [h0]
    refine ⟨by simp, ?_, ?_, ?_⟩
    · intro c hc; simp at hc
    · intro p hp; simp at hp
    · intro _; rfl
  · have hb2 : collapseNewlines (collapseWs body) = collapseWs body :=
      collapseNlGo_eq_self (collapseWs body) (collapseWs_no_crlf body) false
    unfold clean_body_text
    rw [if_neg hb]
    dsimp only
    rw [hb2]
    by_cases hlen : (collapseWs body).length > max_length
    · rw [if_pos hlen]
      have hmark : truncMarker.length = 15 := by decide
      have hchain : List.Chain'
          (fun a c => ¬(isPySpace a = true ∧ isPySpace c = true))
          ((collapseWs body).take max_length ++ truncMarker) := by
        rw [List.chain'_append]
        refine ⟨List.Chain'.take (collapseGo_chain body false) _,
          truncMarker_chain, ?_⟩
        intro x _ y hy
        have hy' : y = '.' := by
          have he : truncMarker.head? = some '.' := rfl
          rw [he] at hy
          simpa using hy.symm
        subst hy'
        intro ⟨_, hys⟩
        exact absurd hys (by decide)
      refine ⟨?_, ?_, chain'_adj_pairs _ (stripPy_chain _ hchain), ?_⟩
      · calc (stripPy ((collapseWs body).take max_length ++ truncMarker)).length
            ≤ ((collapseWs body).take max_length ++ truncMarker).length :=
              stripPy_length_le _
          _ = ((collapseWs body).take max_length).length + 15 := by
              rw [List.length_append, hmark]
          _ ≤ max_length + 15 := by
              have := List.length_take_le max_length (collapseWs body)
              omega
      · intro c hc
        have hmem := stripPy_subset _ c hc
        rcases List.mem_append.mp hmem with hm | hm
        · have := collapseWs_no_crlf body c (List.take_subset _ _ hm)
          exact ⟨this.2, this.1⟩
        · have hmk : ∀ c ∈ truncMarker, c ≠ '\n' ∧ c ≠ '\r' := by decide
          exact hmk c hm
      · intro hle
        exact absurd hle (by omega)
    · rw [if_neg hlen]
      refine ⟨?_, ?_,
        chain'_adj_pairs _ (stripPy_chain _ (collapseGo_chain body false)),
        fun _ => rfl⟩
      · calc (stripPy (collapseWs body)).length ≤ (collapseWs body).length :=
            stripPy_length_le _
          _ ≤ max_length + 15 := by omega
      · intro c hc
        have := collapseWs_no_crlf body c (stripPy_subset _ c hc)
        exact ⟨this.2, this.1⟩

/-- Witness for C9 at a concrete input. -/
theorem clean_body_text_bounded_witness :
    (0 < 4) ∧
    (clean_body_text (chars "a  b\nc d") 4).length ≤ 4 + 15 ∧
    (∀ c ∈ clean_body_text (chars "a  b\nc d") 4, c ≠ '\n' ∧ c ≠ '\r') ∧
    (∀ p ∈ (clean_body_text (chars "a  b\nc d") 4).zip
        (clean_body_text (chars "a  b\nc d") 4).tail,
      ¬(isPySpace p.1 = true ∧ isPySpace p.2 = true)) ∧
    ((collapseWs (chars "a  b\nc d")).length ≤ 4 →
      clean_body_text (chars "a  b\nc d") 4 =
        stripPy (collapseWs (chars "a  b\nc d"))) :=
  ⟨by decide, clean_body_text_bounded (chars "a  b\nc d") 4 (by decide)⟩

/-- Accumulated text without `]` cannot end in `]]`. -/
theorem cdataEnd_eq_false (acc : List Char) (h : ']' ∉ acc) :
    cdataEnd acc = false := by
  unfold cdataEnd
  split
  · next heq =>
    exfalso
    apply h
    have hmem : ']' ∈ acc.reverse := by rw [heq]; simp
    simpa using hmem
  · rfl

/-- Text mode consumes a markup-free run of valid, `]`-free characters
into the accumulator. -/
theorem tokText_run (v : List Char) :
    ∀ rest acc,
      (∀ c ∈ v, c ≠ '<' ∧ c ≠ '&' ∧ c ≠ ']' ∧ xmlValidChar c = true) →
      ']' ∉ acc →
      tokText (v ++ rest) acc = tokText rest (acc ++ v) := by
  induction v with
  | nil => intro rest acc _ _; simp
  | cons c v' ih =>
    intro rest acc h hacc
    have hc := h c (List.mem_cons_self _ _)
    rw [List.cons_append, tokText]
    rw [if_neg hc.1, if_neg hc.2.1]
    rw [if_neg (by simp [hc.2.2.2])]
    rw [if_neg (by
      intro hand
      rw [cdataEnd_eq_false acc hacc] at hand
      exact absurd hand.2 (by simp))]
    rw [ih rest (acc ++ [c])
      (fun d hd => h d (List.mem_cons_of_mem _ hd))
      (by
        intro hm
        rcases List.mem_append.mp hm with hm | hm
        · exact hacc hm
        · rcases List.mem_singleton.mp hm with rfl
          exact hc.2.2.1 rfl)]
    rw [List.append_assoc]
    rfl

/-- Tag mode consumes a delimiter-free run of valid characters into the
tag accumulator. -/
theorem tokTag_run (t : List Char) :
    ∀ rest acc, (∀ c ∈ t, c ≠ '>' ∧ c ≠ '<' ∧ xmlValidChar c = true) →
      tokTag (t ++ rest) acc = tokTag rest (acc ++ t) := by
  induction t with
  | nil => intro rest acc _; simp
  | cons c t' ih =>
    intro rest acc h
    have hc := h c (List.mem_cons_self _ _)
    rw [List.cons_append, tokTag]
    rw [if_neg hc.1, if_neg hc.2.1]
    rw [if_neg (by simp [hc.2.2])]
    rw [ih rest (acc ++ [c]) (fun d hd => h d (List.mem_cons_of_mem _ hd))]
    rw [List.append_assoc]
    rfl

/-- Tokenizing an opening tag emits its token and restarts text mode. -/
theorem tok_openTag (t : List Char) (rest acc : List Char)
    (ht : ∀ c ∈ t, c ≠ '>' ∧ c ≠ '<' ∧ xmlValidChar c = true)
    (hmk : mkTag t = some (XTok.op t)) :
    tokText (openTag t ++ rest) acc =
      (tokText rest []).map (fun ts => flushText acc ++ (XTok.op t :: ts)) := by
  have hsh : openTag t ++ rest = '<' :: (t ++ ('>' :: rest)) := by
    simp [openTag]
  rw [hsh, tokText, if_pos rfl]
  rw [tokTag_run t ('>' :: rest) [] ht]
  rw [List.nil_append, tokTag, if_pos rfl, hmk]
  rw [Option.map_map]
  rfl

/-- Tokenizing a closing tag emits its token and restarts text mode. -/
theorem tok_closeTag (t : List Char) (rest acc : List Char)
    (ht : ∀ c ∈ t, c ≠ '>' ∧ c ≠ '<' ∧ xmlValidChar c = true)
    (hmk : mkTag ('/' :: t) = some (XTok.cl t)) :
    tokText (closeTag t ++ rest) acc =
      (tokText rest []).map (fun ts => flushText acc ++ (XTok.cl t :: ts)) := by
  have hsh : closeTag t ++ rest = '<' :: '/' :: (t ++ ('>' :: rest)) := by
    simp [closeTag]
  rw [hsh, tokText, if_pos rfl]
  rw [tokTag]
  rw [if_neg (by decide), if_neg (by decide), if_neg (by decide)]
  rw [show ([] : List Char) ++ ['/'] = ['/'] from rfl]
  rw [tokTag_run t ('>' :: rest) ['/'] ht]
  rw [show ['/'] ++ t = '/' :: t from rfl]
  rw [tokTag, if_pos rfl, hmk]
  rw [Option.map_map]
  rfl

/-- Tokenizing a leaf element emits open token, optional text, close token. -/
theorem tok_leafElem (t v : List Char) (rest acc : List Char)
    (ht : ∀ c ∈ t, c ≠ '>' ∧ c ≠ '<' ∧ xmlValidChar c = true)
    (hmko : mkTag t = some (XTok.op t))
    (hmkc : mkTag ('/' :: t) = some (XTok.cl t))
    (hv : ∀ c ∈ v, c ≠ '<' ∧ c ≠ '&' ∧ c ≠ ']' ∧ xmlValidChar c = true) :
    tokText (leafElem t v ++ rest) acc =
      (tokText rest []).map (fun ts =>
        flushText acc ++ (XTok.op t :: (flushText v ++ (XTok.cl t :: ts)))) := by
  have hsh : leafElem t v ++ rest = openTag t ++ (v ++ (closeTag t ++ rest)) := by
    simp [leafElem]
  rw [hsh]
  rw [tok_openTag t _ acc ht hmko]
  rw [tokText_run v _ [] hv (by simp), List.nil_append]
  rw [tok_closeTag t rest v ht hmkc]
  rw [Option.map_map]
  rfl

/-- Stack step: an opening token pushes a frame. -/
theorem buildTrees_op (t : List Char) (ts : List XTok)
    (stk : List (List Char × List XNode)) (acc : List XNode) :
    buildTrees (XTok.op t :: ts) stk acc = buildTrees ts ((t, acc) :: stk) [] :=
  rfl

/-- Stack step: a matching closing token pops a frame. -/
theorem buildTrees_cl (t : List Char) (ts : List XTok)
    (acc' : List XNode) (stk : List (List Char × List XNode)) (acc : List XNode) :
    buildTrees (XTok.cl t :: ts) ((t, acc') :: stk) acc =
      buildTrees ts stk (XNode.elem t acc.reverse :: acc') := by
  rw [buildTrees, if_pos rfl]

/-- Stack step: a whole leaf group adds one element node. -/
theorem buildTrees_leaf (t v : List Char) (ts : List XTok)
    (stk : List (List Char × List XNode)) (acc : List XNode) :
    buildTrees (XTok.op t :: (flushText v ++ (XTok.cl t :: ts))) stk acc =
      buildTrees ts stk (XNode.elem t (txtNodes v) :: acc) := by
  by_cases hv : v = []
  · subst hv
    rw [show flushText [] = [] from rfl, List.nil_append]
    rw [buildTrees_op, buildTrees_cl]
    rw [show ([] : List XNode).reverse = [] from rfl]
    rw [show txtNodes [] = [] from rfl]
  · rw [show flushText v = [XTok.tx v] from by simp [flushText, hv]]
    rw [show ([XTok.tx v] ++ XTok.cl t :: ts) = XTok.tx v :: XTok.cl t :: ts from rfl]
    rw [buildTrees_op, buildTrees, buildTrees_cl]
    rw [show (XNode.txt v :: []).reverse = [XNode.txt v] from rfl]
    rw [show txtNodes v = [XNode.txt v] from by simp [txtNodes, hv]]

/-- Tokenizing a serialized analysis document yields its token list. -/
theorem tokenize_serialize (v1 v2 v3 v4 v5 v6 v7 v8 v9 : List Char)
    (h1 : tokSafe v1) (h2 : tokSafe v2) (h3 : tokSafe v3) (h4 : tokSafe v4)
    (h5 : tokSafe v5) (h6 : tokSafe v6) (h7 : tokSafe v7) (h8 : tokSafe v8)
    (h9 : tokSafe v9) :
    tokenize (serializeAnalysis v1 v2 v3 v4 v5 v6 v7 v8 v9) =
      some (analysisToks v1 v2 v3 v4 v5 v6 v7 v8 v9) := by
  unfold tokenize serializeAnalysis
  simp only [List.append_assoc]
  rw [tok_openTag (chars "analysis") _ _ (by decide) rfl]
  rw [tok_leafElem (chars "record_id") v1 _ _ (by decide) rfl rfl h1]
  rw [tok_openTag (chars "company_info") _ _ (by decide) rfl]
  rw [tok_leafElem (chars "name") v2 _ _ (by decide) rfl rfl h2]
  rw [tok_leafElem (chars "website") v3 _ _ (by decide) rfl rfl h3]
  rw [tok_leafElem (chars "country") v4 _ _ (by decide) rfl rfl h4]
  rw [tok_closeTag (chars "company_info") _ _ (by decide) rfl]
  rw [tok_leafElem (chars "email_category") v5 _ _ (by decide) rfl rfl h5]
  rw [tok_leafElem (chars "product_category") v6 _ _ (by decide) rfl rfl h6]
  rw [tok_leafElem (chars "equipment_requested") v7 _ _ (by decide) rfl rfl h7]
  rw [tok_leafElem (chars "technical_specifications") v8 _ _ (by decide) rfl rfl h8]
  rw [tok_leafElem (chars "subject_body_correlation") v9 _ _ (by decide) rfl rfl h9]
  rw [show closeTag (chars "analysis") =
        closeTag (chars "analysis") ++ [] from (List.append_nil _).symm]
  rw [tok_closeTag (chars "analysis") _ _ (by decide) rfl]
  rw [show tokText [] [] = some [] from rfl]
  simp [analysisToks, flushText]

/-- Building the tree of a serialized analysis document. -/
theorem buildTrees_analysisToks (v1 v2 v3 v4 v5 v6 v7 v8 v9 : List Char) :
    buildTrees (analysisToks v1 v2 v3 v4 v5 v6 v7 v8 v9) [] [] =
      some [analysisRoot v1 v2 v3 v4 v5 v6 v7 v8 v9] := by
  unfold analysisToks
  rw [buildTrees_op]
  rw [buildTrees_leaf]
  rw [buildTrees_op]
  rw [buildTrees_leaf, buildTrees_leaf, buildTrees_leaf]
  rw [buildTrees_cl]
  rw [buildTrees_leaf, buildTrees_leaf, buildTrees_leaf, buildTrees_leaf,
    buildTrees_leaf]
  rw [buildTrees_cl]
  simp [buildTrees, analysisRoot]

/-- The tokenizer-level safety facts follow from XML safety. -/
theorem xmlSafe_tok (v : List Char) (h : ∀ c ∈ v, xmlSafe c = true) :
    tokSafe v := by
  intro c hc
  have hx := h c hc
  unfold xmlSafe at hx
  simp only [Bool.and_eq_true, ne_eq, decide_eq_true_eq] at hx
  exact ⟨hx.1.1.1.1.1, hx.1.1.1.1.2, hx.1.1.2, hx.2⟩

/-- No XML-safe character is a carriage return. -/
theorem xmlSafe_cr (c : Char) (h : xmlSafe c = true) : c ≠ '\r' := by
  unfold xmlSafe at h
  simp only [Bool.and_eq_true, ne_eq, decide_eq_true_eq] at h
  exact h.1.1.1.2

/-- Line-break normalization is the identity on CR-free text. -/
theorem normNlGo_eq_self (l : List Char) (h : ∀ c ∈ l, c ≠ '\r') :
    normNlGo false l = l := by
  induction l with
  | nil => rfl
  | cons a as ih =>
    rw [normNlGo]
    rw [if_neg (h a (List.mem_cons_self _ _))]
    rw [if_neg (by simp)]
    rw [ih (fun c hc => h c (List.mem_cons_of_mem _ hc))]

/-- A serialized analysis document over XML-safe values contains no
carriage return. -/
theorem serialize_no_cr (v1 v2 v3 v4 v5 v6 v7 v8 v9 : List Char)
    (h1 : ∀ c ∈ v1, xmlSafe c = true) (h2 : ∀ c ∈ v2, xmlSafe c = true)
    (h3 : ∀ c ∈ v3, xmlSafe c = true) (h4 : ∀ c ∈ v4, xmlSafe c = true)
    (h5 : ∀ c ∈ v5, xmlSafe c = true) (h6 : ∀ c ∈ v6, xmlSafe c = true)
    (h7 : ∀ c ∈ v7, xmlSafe c = true) (h8 : ∀ c ∈ v8, xmlSafe c = true)
    (h9 : ∀ c ∈ v9, xmlSafe c = true) :
    ∀ c ∈ serializeAnalysis v1 v2 v3 v4 v5 v6 v7 v8 v9, c ≠ '\r' := by
  have g1 : ∀ c ∈ v1, c ≠ '\r' := fun c hc => xmlSafe_cr c (h1 c hc)
  have g2 : ∀ c ∈ v2, c ≠ '\r' := fun c hc => xmlSafe_cr c (h2 c hc)
  have g3 : ∀ c ∈ v3, c ≠ '\r' := fun c hc => xmlSafe_cr c (h3 c hc)
  have g4 : ∀ c ∈ v4, c ≠ '\r' := fun c hc => xmlSafe_cr c (h4 c hc)
  have g5 : ∀ c ∈ v5, c ≠ '\r' := fun c hc => xmlSafe_cr c (h5 c hc)
  have g6 : ∀ c ∈ v6, c ≠ '\r' := fun c hc => xmlSafe_cr c (h6 c hc)
  have g7 : ∀ c ∈ v7, c ≠ '\r' := fun c hc => xmlSafe_cr c (h7 c hc)
  have g8 : ∀ c ∈ v8, c ≠ '\r' := fun c hc => xmlSafe_cr c (h8 c hc)
  have g9 : ∀ c ∈ v9, c ≠ '\r' := fun c hc => xmlSafe_cr c (h9 c hc)
  unfold serializeAnalysis leafElem
  simp only [List.append_assoc, List.forall_mem_append]
  repeat' apply And.intro
  all_goals first | decide | assumption

/-- Parsing a serialized analysis document over XML-safe values yields
its tree. -/
theorem fromstring_serialize (v1 v2 v3 v4 v5 v6 v7 v8 v9 : List Char)
    (h1 : ∀ c ∈ v1, xmlSafe c = true) (h2 : ∀ c ∈ v2, xmlSafe c = true)
    (h3 : ∀ c ∈ v3, xmlSafe c = true) (h4 : ∀ c ∈ v4, xmlSafe c = true)
    (h5 : ∀ c ∈ v5, xmlSafe c = true) (h6 : ∀ c ∈ v6, xmlSafe c = true)
    (h7 : ∀ c ∈ v7, xmlSafe c = true) (h8 : ∀ c ∈ v8, xmlSafe c = true)
    (h9 : ∀ c ∈ v9, xmlSafe c = true) :
    fromstring (serializeAnalysis v1 v2 v3 v4 v5 v6 v7 v8 v9) =
      some (analysisRoot v1 v2 v3 v4 v5 v6 v7 v8 v9) := by
  have hnn : normNl (serializeAnalysis v1 v2 v3 v4 v5 v6 v7 v8 v9) =
      serializeAnalysis v1 v2 v3 v4 v5 v6 v7 v8 v9 := by
    unfold normNl
    exact normNlGo_eq_self _
      (serialize_no_cr v1 v2 v3 v4 v5 v6 v7 v8 v9 h1 h2 h3 h4 h5 h6 h7 h8 h9)
  unfold fromstring
  rw [hnn]
  rw [tokenize_serialize v1 v2 v3 v4 v5 v6 v7 v8 v9
    (xmlSafe_tok v1 h1) (xmlSafe_tok v2 h2) (xmlSafe_tok v3 h3)
    (xmlSafe_tok v4 h4) (xmlSafe_tok v5 h5) (xmlSafe_tok v6 h6)
    (xmlSafe_tok v7 h7) (xmlSafe_tok v8 h8) (xmlSafe_tok v9 h9)]
  dsimp only
  rw [buildTrees_analysisToks]
  simp only [analysisRoot]

/-- The text of a parsed leaf element is its serialized content. -/
theorem childText_txtNodes (t v : List Char) :
    childText (XNode.elem t (txtNodes v)) = v := by
  by_cases hv : v = []
  · subst hv; rfl
  · rw [show txtNodes v = [XNode.txt v] from by simp [txtNodes, hv]]
    rfl

/-- Field extraction on the parsed analysis tree is the identity on the
nine serialized values. -/
theorem extractedDict_analysisRoot (v1 v2 v3 v4 v5 v6 v7 v8 v9 : List Char) :
    extractedDict (analysisRoot v1 v2 v3 v4 v5 v6 v7 v8 v9) =
      identityDict v1 v2 v3 v4 v5 v6 v7 v8 v9 := by
  have e1 : findtext (analysisRoot v1 v2 v3 v4 v5 v6 v7 v8 v9)
      [chars "record_id"] (chars "Not found") =
      childText (XNode.elem (chars "record_id") (txtNodes v1)) := rfl
  have e2 : findtext (analysisRoot v1 v2 v3 v4 v5 v6 v7 v8 v9)
      [chars "company_info", chars "name"] (chars "Not specified") =
      childText (XNode.elem (chars "name") (txtNodes v2)) := rfl
  have e3 : findtext (analysisRoot v1 v2 v3 v4 v5 v6 v7 v8 v9)
      [chars "company_info", chars "website"] (chars "Not mentioned") =
      childText (XNode.elem (chars "website") (txtNodes v3)) := rfl
  have e4 : findtext (analysisRoot v1 v2 v3 v4 v5 v6 v7 v8 v9)
      [chars "company_info", chars "country"] (chars "Not specified") =
      childText (XNode.elem (chars "country") (txtNodes v4)) := rfl
  have e5 : findtext (analysisRoot v1 v2 v3 v4 v5 v6 v7 v8 v9)
      [chars "email_category"] (chars "Not specified") =
      childText (XNode.elem (chars "email_category") (txtNodes v5)) := rfl
  have e6 : findtext (analysisRoot v1 v2 v3 v4 v5 v6 v7 v8 v9)
      [chars "product_category"] (chars "Not specified") =
      childText (XNode.elem (chars "product_category") (txtNodes v6)) := rfl
  have e7 : findtext (analysisRoot v1 v2 v3 v4 v5 v6 v7 v8 v9)
      [chars "equipment_requested"] (chars "Not specified") =
      childText (XNode.elem (chars "equipment_requested") (txtNodes v7)) := rfl
  have e8 : findtext (analysisRoot v1 v2 v3 v4 v5 v6 v7 v8 v9)
      [chars "technical_specifications"] (chars "None specified") =
      childText (XNode.elem (chars "technical_specifications") (txtNodes v8)) := rfl
  have e9 : findtext (analysisRoot v1 v2 v3 v4 v5 v6 v7 v8 v9)
      [chars "subject_body_correlation"] (chars "Not specified") =
      childText (XNode.elem (chars "subject_body_correlation") (txtNodes v9)) := rfl
  unfold extractedDict identityDict
  rw [e1, e2, e3, e4, e5, e6, e7, e8, e9]
  rw [childText_txtNodes, childText_txtNodes, childText_txtNodes,
    childText_txtNodes, childText_txtNodes, childText_txtNodes,
    childText_txtNodes, childText_txtNodes, childText_txtNodes]

/-- Control stripping distributes over concatenation. -/
theorem stripCtrl_append (a b : List Char) :
    stripCtrl (a ++ b) = stripCtrl a ++ stripCtrl b := by
  unfold stripCtrl
  rw [List.filter_append]

/-- An XML-safe value is untouched by control stripping. -/
theorem stripCtrl_value (v : List Char) (h : ∀ c ∈ v, xmlSafe c = true) :
    stripCtrl v = v := by
  unfold stripCtrl
  rw [List.filter_eq_self]
  intro a ha
  have hx := h a ha
  unfold xmlSafe at hx
  simp only [Bool.and_eq_true] at hx
  exact hx.1.2

/-- Opening tags over control-free names are untouched by control
stripping. -/
theorem stripCtrl_openTag (t : List Char)
    (h : ∀ c ∈ t, (!isStrippedCtrl c) = true) :
    stripCtrl (openTag t) = openTag t := by
  unfold stripCtrl openTag
  rw [List.filter_eq_self]
  intro a ha
  rcases List.mem_cons.mp ha with ha | ha
  · subst ha; decide
  · rcases List.mem_append.mp ha with ha | ha
    · exact h a ha
    · rcases List.mem_singleton.mp ha with rfl; decide

/-- Closing tags over control-free names are untouched by control
stripping. -/
theorem stripCtrl_closeTag (t : List Char)
    (h : ∀ c ∈ t, (!isStrippedCtrl c) = true) :
    stripCtrl (closeTag t) = closeTag t := by
  unfold stripCtrl closeTag
  rw [List.filter_eq_self]
  intro a ha
  rcases List.mem_cons.mp ha with ha | ha
  · subst ha; decide
  · rcases List.mem_cons.mp ha with ha | ha
    · subst ha; decide
    · rcases List.mem_append.mp ha with ha | ha
      · exact h a ha
      · rcases List.mem_singleton.mp ha with rfl; decide

/-- Leaf elements over control-free names and XML-safe values are
untouched by control stripping. -/
theorem stripCtrl_leafElem (t v : List Char)
    (ht : ∀ c ∈ t, (!isStrippedCtrl c) = true)
    (hv : ∀ c ∈ v, xmlSafe c = true) :
    stripCtrl (leafElem t v) = leafElem t v := by
  unfold leafElem
  rw [stripCtrl_append, stripCtrl_append]
  rw [stripCtrl_openTag t ht, stripCtrl_closeTag t ht, stripCtrl_value v hv]

/-- A serialized analysis document over XML-safe values is untouched by
control stripping. -/
theorem stripCtrl_serialize (v1 v2 v3 v4 v5 v6 v7 v8 v9 : List Char)
    (h1 : ∀ c ∈ v1, xmlSafe c = true) (h2 : ∀ c ∈ v2, xmlSafe c = true)
    (h3 : ∀ c ∈ v3, xmlSafe c = true) (h4 : ∀ c ∈ v4, xmlSafe c = true)
    (h5 : ∀ c ∈ v5, xmlSafe c = true) (h6 : ∀ c ∈ v6, xmlSafe c = true)
    (h7 : ∀ c ∈ v7, xmlSafe c = true) (h8 : ∀ c ∈ v8, xmlSafe c = true)
    (h9 : ∀ c ∈ v9, xmlSafe c = true) :
    stripCtrl (serializeAnalysis v1 v2 v3 v4 v5 v6 v7 v8 v9) =
      serializeAnalysis v1 v2 v3 v4 v5 v6 v7 v8 v9 := by
  unfold serializeAnalysis
  simp only [stripCtrl_append]
  rw [stripCtrl_openTag _ (by decide), stripCtrl_openTag _ (by decide)]
  rw [stripCtrl_closeTag _ (by decide), stripCtrl_closeTag _ (by decide)]
  rw [stripCtrl_leafElem _ _ (by decide) h1, stripCtrl_leafElem _ _ (by decide) h2,
    stripCtrl_leafElem _ _ (by decide) h3, stripCtrl_leafElem _ _ (by decide) h4,
    stripCtrl_leafElem _ _ (by decide) h5, stripCtrl_leafElem _ _ (by decide) h6,
    stripCtrl_leafElem _ _ (by decide) h7, stripCtrl_leafElem _ _ (by decide) h8,
    stripCtrl_leafElem _ _ (by decide) h9]

/-- A character failing the predicate survives `dropWhile`. -/
theorem mem_dropWhile_of_not (p : Char → Bool) (l : List Char) (c : Char)
    (hc : c ∈ l) (hp : p c = false) : c ∈ l.dropWhile p := by
  induction l with
  | nil => simp at hc
  | cons a as ih =>
    rw [List.dropWhile_cons]
    by_cases ha : p a
    · rw [if_pos ha]
      rcases List.mem_cons.mp hc with hc' | hc'
      · subst hc'; rw [hp] at ha; exact absurd ha (by simp)
      · exact ih hc'
    · rw [if_neg ha]
      exact hc

/-- A character failing the predicate survives `rdropWhile`. -/
theorem mem_rdropWhile_of_not (p : Char → Bool) (l : List Char) (c : Char)
    (hc : c ∈ l) (hp : p c = false) : c ∈ l.rdropWhile p := by
  rw [List.rdropWhile, List.mem_reverse]
  exact mem_dropWhile_of_not p l.reverse c (by simpa using hc) hp

/-- A string containing a non-whitespace character does not strip to
empty. -/
theorem stripPy_ne_nil (l : List Char) (c : Char) (hc : c ∈ l)
    (hp : isPySpace c = false) : stripPy l ≠ [] := by
  unfold stripPy
  intro hnil
  have h1 := mem_dropWhile_of_not isPySpace l c hc hp
  have h2 := mem_rdropWhile_of_not isPySpace (l.dropWhile isPySpace) c h1 hp
  rw [hnil] at h2
  simp at h2

/-- C3 (amended): the parser round-trip holds for the structured
XML-tagged response format the completion service is instructed to
produce (the format the code actually parses): for all nine field values
over XML-safe characters, feeding the serialized `<analysis>` document
through `parse_xml` reproduces exactly the nine field values.  The claim
as frozen speaks of JSON responses, which `parse_xml` rejects — see the
counterexample. -/
theorem parse_xml_roundtrip (v1 v2 v3 v4 v5 v6 v7 v8 v9 : List Char)
    (h1 : ∀ c ∈ v1, xmlSafe c = true) (h2 : ∀ c ∈ v2, xmlSafe c = true)
    (h3 : ∀ c ∈ v3, xmlSafe c = true) (h4 : ∀ c ∈ v4, xmlSafe c = true)
    (h5 : ∀ c ∈ v5, xmlSafe c = true) (h6 : ∀ c ∈ v6, xmlSafe c = true)
    (h7 : ∀ c ∈ v7, xmlSafe c = true) (h8 : ∀ c ∈ v8, xmlSafe c = true)
    (h9 : ∀ c ∈ v9, xmlSafe c = true) :
    parse_xml (some (serializeAnalysis v1 v2 v3 v4 v5 v6 v7 v8 v9)) =
      identityDict v1 v2 v3 v4 v5 v6 v7 v8 v9 := by
  have hmem : '<' ∈ serializeAnalysis v1 v2 v3 v4 v5 v6 v7 v8 v9 := by
    unfold serializeAnalysis openTag
    simp
  have hne : serializeAnalysis v1 v2 v3 v4 v5 v6 v7 v8 v9 ≠ [] :=
    List.ne_nil_of_mem hmem
  have hctrl := stripCtrl_serialize v1 v2 v3 v4 v5 v6 v7 v8 v9
    h1 h2 h3 h4 h5 h6 h7 h8 h9
  have hstrip : stripPy (serializeAnalysis v1 v2 v3 v4 v5 v6 v7 v8 v9) ≠ [] :=
    stripPy_ne_nil _ '<' hmem (by decide)
  have hfrom := fromstring_serialize v1 v2 v3 v4 v5 v6 v7 v8 v9
    h1 h2 h3 h4 h5 h6 h7 h8 h9
  unfold parse_xml
  dsimp only
  rw [if_neg hne, hctrl, if_neg hstrip, hfrom]
  exact extractedDict_analysisRoot v1 v2 v3 v4 v5 v6 v7 v8 v9

/-- Witness for the amended C3 at concrete field values. -/
theorem parse_xml_roundtrip_witness :
    (∀ c ∈ chars "7", xmlSafe c = true) ∧
    (∀ c ∈ chars "Acme S.A.", xmlSafe c = true) ∧
    (∀ c ∈ chars "www.acme.es", xmlSafe c = true) ∧
    (∀ c ∈ chars "Spain", xmlSafe c = true) ∧
    (∀ c ∈ chars "Productos", xmlSafe c = true) ∧
    (∀ c ∈ chars "Bombas", xmlSafe c = true) ∧
    (∀ c ∈ chars "dosing pump", xmlSafe c = true) ∧
    (∀ c ∈ chars "None specified", xmlSafe c = true) ∧
    (∀ c ∈ chars "aligned", xmlSafe c = true) ∧
    parse_xml (some (serializeAnalysis (chars "7") (chars "Acme S.A.")
        (chars "www.acme.es") (chars "Spain") (chars "Productos")
        (chars "Bombas") (chars "dosing pump") (chars "None specified")
        (chars "aligned"))) =
      identityDict (chars "7") (chars "Acme S.A.") (chars "www.acme.es")
        (chars "Spain") (chars "Productos") (chars "Bombas")
        (chars "dosing pump") (chars "None specified") (chars "aligned") :=
  ⟨by decide, by decide, by decide, by decide, by decide, by decide, by decide,
   by decide, by decide,
   parse_xml_roundtrip (chars "7") (chars "Acme S.A.") (chars "www.acme.es")
     (chars "Spain") (chars "Productos") (chars "Bombas")
     (chars "dosing pump") (chars "None specified") (chars "aligned")
     (by decide) (by decide) (by decide) (by decide) (by decide) (by decide)
     (by decide) (by decide) (by decide)⟩

set_option maxRecDepth 40000 in
/-- C3 counterexample: a known-good structured JSON response carrying the
nine schema fields does NOT round-trip through the parser — `parse_xml`
rejects JSON (`ET.fromstring` raises `ParseError` on it) and returns the
"XML parse error" sentinel instead of the field values. -/
theorem parse_xml_json_not_roundtrip :
    parse_xml (some (chars "\x7b\"record_id\": \"7\", \"company_name\": \"Acme\", \"company_website\": \"w.es\", \"company_country\": \"Spain\", \"email_category\": \"Productos\", \"product_category\": \"Bombas\", \"equipment_requested\": \"pump\", \"technical_specifications\": \"none\", \"subject_body_correlation\": \"ok\"\x7d")) =
      sentinelDict "XML parse error" "Parse error" ∧
    parse_xml (some (chars "\x7b\"record_id\": \"7\", \"company_name\": \"Acme\", \"company_website\": \"w.es\", \"company_country\": \"Spain\", \"email_category\": \"Productos\", \"product_category\": \"Bombas\", \"equipment_requested\": \"pump\", \"technical_specifications\": \"none\", \"subject_body_correlation\": \"ok\"\x7d")) ≠
      identityDict (chars "7") (chars "Acme") (chars "w.es") (chars "Spain")
        (chars "Productos") (chars "Bombas") (chars "pump") (chars "none")
        (chars "ok") := by
  constructor
  · decide
  · decide
